import Mathlib

/-
Shallow embedding of the bulk batch accumulator (`Bulk`, `Command`,
`FindSyntax`) and the lazy cursor adapter (`Cursor`) of the mongoist
compatibility layer, together with proofs about the batching, execution
and cursor-realization behaviour.

JavaScript objects with string keys are modelled as insertion-ordered
association lists (`objGet` / `objSet`); JS mutation becomes explicit
state passing.  Store responses are modelled as a function from the
submission index to a `CommandResult`.
-/

set_option autoImplicit false

namespace Mongoist

/-! ## JS object model: insertion-ordered string-keyed maps -/

/-- Reading `m[k]` on a JS object: `none` models `undefined`. -/
def objGet {α : Type} (m : List (String × α)) (k : String) : Option α :=
  (m.find? (fun p => p.1 == k)).map (fun p => p.2)

/-- Writing `m[k] = v` on a JS object: overwrite in place if the key exists,
otherwise append (JS objects preserve insertion order of string keys). -/
def objSet {α : Type} (m : List (String × α)) (k : String) (v : α) : List (String × α) :=
  if m.any (fun p => p.1 == k) then
    m.map (fun p => if p.1 == k then (k, v) else p)
  else
    m ++ [(k, v)]

/-! ## Operations and Commands -/

/-- MAX_BULK_SIZE from the source. -/
def MAX_BULK_SIZE : Nat := 1000

/-- One accumulated write intent: an inserted document (`documents` entries),
an update spec `{q, u, multi, upsert}` (`updates` entries) or a delete spec
`{q, limit}` (`deletes` entries).  Document/query/update payloads are opaque
naturals (their content never influences the batching logic; the `_id`
assignment in `Bulk.insert` mutates only the document itself). -/
inductive Op where
  | doc (d : Nat)
  | upd (q u : Nat) (multi upsert : Bool)
  | del (q : Nat) (lim : Nat)
deriving DecidableEq

/-- The `Command` class: `cmdNames` maps a command name (`insert` / `update` /
`delete`) to the collection name, `bulkCollections` maps a bucket name
(`documents` / `updates` / `deletes`) to the accumulated operation array. -/
structure Command where
  ordered : Bool
  writeConcern : Nat
  cmdNames : List (String × String)
  bulkCollections : List (String × List Op)
deriving DecidableEq

def Command.setCmdName (c : Command) (cmdName colName : String) : Command :=
  { c with cmdNames := objSet c.cmdNames cmdName colName }

def Command.setBulkCollection (c : Command) (b : String) : Command :=
  { c with bulkCollections := objSet c.bulkCollections b [] }

def Command.getCmdName (c : Command) (k : String) : Option String :=
  objGet c.cmdNames k

def Command.getBulkCollection (c : Command) (b : String) : Option (List Op) :=
  objGet c.bulkCollections b

/-- The operation array stored under bucket `b` (empty if absent). -/
def Command.bucket (c : Command) (b : String) : List Op :=
  (c.getBulkCollection b).getD []

/-- Models `cmd.getBulkCollection(b).push(op)` (in-place array push). -/
def Command.pushOp (c : Command) (b : String) (op : Op) : Command :=
  { c with bulkCollections := objSet c.bulkCollections b (c.bucket b ++ [op]) }

/-! ## The Bulk accumulator -/

/-- State of a `Bulk` instance. -/
structure Bulk where
  colName : String
  ordered : Bool
  writeConcern : Nat
  cmds : List Command
  currentCmd : Option Command
deriving DecidableEq

/-- The `Bulk` constructor: empty command list, no current command. -/
def Bulk.init (colName : String) (ordered : Bool) (w : Nat) : Bulk :=
  ⟨colName, ordered, w, [], none⟩

/-- JS truthiness of `getCmdName`'s result: `undefined` and the empty string
are falsy, any other string is truthy. -/
def jsTruthyStr : Option String → Bool
  | none => false
  | some s => s != ""

/-- Method `Bulk.ensureCommand(cmdName, bulkCollection)`: flush the current command
when its command name does not match (falsy lookup) or its bucket is full,
then return the current command, creating a fresh one if needed.  The
returned command is always the (new) `currentCmd`; callers mutate it in
place, which the callers below model by writing the updated command back
into `currentCmd`. -/
def Bulk.ensureCommand (s : Bulk) (cmdName bulkCollection : String) : Command × Bulk :=
  let s1 :=
    match s.currentCmd with
    | some cur =>
        if !(jsTruthyStr (cur.getCmdName cmdName)) || (cur.bucket bulkCollection).length == MAX_BULK_SIZE then
          { s with cmds := s.cmds ++ [cur], currentCmd := none }
        else s
    | none => s
  match s1.currentCmd with
  | some cur => (cur, s1)
  | none =>
      let c := ((Command.mk s.ordered s.writeConcern [] []).setCmdName cmdName s.colName).setBulkCollection bulkCollection
      (c, { s1 with currentCmd := some c })

/-- Method `Bulk.insert(doc)`: push the document into the current insert command
(the `doc._id = doc._id || new ObjectId()` line only mutates the document
payload, which is opaque here). -/
def Bulk.insert (s : Bulk) (doc : Nat) : Bulk :=
  let p := s.ensureCommand "insert" "documents"
  { p.2 with currentCmd := some (p.1.pushOp "documents" (Op.doc doc)) }

def Bulk.insertAll (s : Bulk) (docs : List Nat) : Bulk :=
  docs.foldl Bulk.insert s

/-- The builder returned by `Bulk.find(q)`: it closes over the query and the
mutable `upsert` flag. -/
structure FindSyntax where
  q : Nat
  upsertFlag : Bool
deriving DecidableEq

def Bulk.find (_s : Bulk) (q : Nat) : FindSyntax :=
  ⟨q, false⟩

/-- The `remove` closure inside `Bulk.find`. -/
def FindSyntax.removeLim (fs : FindSyntax) (s : Bulk) (lim : Nat) : Bulk :=
  let p := s.ensureCommand "delete" "deletes"
  { p.2 with currentCmd := some (p.1.pushOp "deletes" (Op.del fs.q lim)) }

/-- The `update` closure inside `Bulk.find`. -/
def FindSyntax.updateMulti (fs : FindSyntax) (s : Bulk) (u : Nat) (multi : Bool) : Bulk :=
  let p := s.ensureCommand "update" "updates"
  { p.2 with currentCmd := some (p.1.pushOp "updates" (Op.upd fs.q u multi fs.upsertFlag)) }

def FindSyntax.remove (fs : FindSyntax) (s : Bulk) : Bulk := fs.removeLim s 0

def FindSyntax.removeOne (fs : FindSyntax) (s : Bulk) : Bulk := fs.removeLim s 1

def FindSyntax.update (fs : FindSyntax) (s : Bulk) (u : Nat) : Bulk := fs.updateMulti s u true

def FindSyntax.updateOne (fs : FindSyntax) (s : Bulk) (u : Nat) : Bulk := fs.updateMulti s u false

def FindSyntax.replaceOne (fs : FindSyntax) (s : Bulk) (u : Nat) : Bulk := fs.updateOne s u

def FindSyntax.upsert (fs : FindSyntax) : FindSyntax := { fs with upsertFlag := true }

/-! ## Execution and result aggregation -/

/-- A per-document write error as reported by the store. -/
structure WriteError where
  index : Nat
  code : Nat
deriving DecidableEq

/-- The store's response to one submitted command. -/
structure CommandResult where
  n : Int
  writeErrors : List WriteError
  upserted : List Nat
deriving DecidableEq

/-- The aggregated batch result object built by `Bulk.execute`.  The
`undefinedNaN` flag models the JS property `result["undefined"]` becoming
`NaN` when `setResult` indexes `result` with an undefined key. -/
structure BatchResult where
  writeErrors : List WriteError
  writeConcernErrors : List WriteError
  nInserted : Int
  nUpserted : Int
  nMatched : Int
  nModified : Int
  nRemoved : Int
  upserted : List Nat
  undefinedNaN : Bool
  ok : Int
deriving DecidableEq

def emptyBatchResult : BatchResult :=
  ⟨[], [], 0, 0, 0, 0, 0, [], false, 0⟩

/-- The `cmdKeys` table of `Bulk`; indexing with any other string yields
`undefined`. -/
def cmdKeys : String → Option String
  | "insert" => some "nInserted"
  | "delete" => some "nRemoved"
  | "update" => some "nUpserted"
  | _ => none

/-- Own enumerable property names, in order, of a `Command` class instance in
the compiled JavaScript: the field initializers (`cmdNames = \x7b\x7d`,
`bulkCollections = \x7b\x7d`) run before the constructor body assigns
`ordered` and `writeConcern`; with ES2022 class-field semantics all four are
instead defined in declaration order.  Under either compilation every own key
is one of these four names — never `insert`, `update` or `delete`. -/
def commandOwnKeys : List String :=
  ["cmdNames", "bulkCollections", "ordered", "writeConcern"]

/-- Value of `Object.keys(cmd)[0]` for a `Command` instance (see `commandOwnKeys`). -/
def commandFirstKey (_c : Command) : String := "cmdNames"

/-- Statement `result[k] += n` for the three count keys `cmdKeys` can produce. -/
def addCount (r : BatchResult) (k : String) (n : Int) : BatchResult :=
  if k = "nInserted" then { r with nInserted := r.nInserted + n }
  else if k = "nRemoved" then { r with nRemoved := r.nRemoved + n }
  else if k = "nUpserted" then { r with nUpserted := r.nUpserted + n }
  else r

/-- Function `setResult(cmd, cmdResult)`: `result[this.cmdKeys[Object.keys(cmd)[0]]]
+= cmdResult.n`, then append `cmdResult.writeErrors` to `result.writeErrors`
(write-concern errors are deliberately not collected).  When the `cmdKeys`
lookup misses — which is always the case, since the first own key of a
`Command` instance is never an operation name — the JS statement writes `NaN`
to `result["undefined"]`, modelled by setting `undefinedNaN`. -/
def setResult (r : BatchResult) (cmd : Command) (cmdResult : CommandResult) : BatchResult :=
  let r1 :=
    match cmdKeys (commandFirstKey cmd) with
    | some k => addCount r k cmdResult.n
    | none => { r with undefinedNaN := true }
  { r1 with writeErrors := r1.writeErrors ++ cmdResult.writeErrors }

/-- The promise chain built by `each`: submit the command at `idx`, merge its
response with `setResult`, then continue with the next command.  `store i`
is the store's response to the i-th submission. -/
def eachRun (store : Nat → CommandResult) : List Command → Nat → BatchResult → BatchResult
  | [], _, r => r
  | cmd :: rest, idx, r => eachRun store rest (idx + 1) (setResult r cmd (store idx))

/-- Method `pushCurrentCmd`: appends the current command to the list (without
clearing `currentCmd`, as in the source). -/
def Bulk.pushCurrentCmd (s : Bulk) : Bulk :=
  match s.currentCmd with
  | some c => { s with cmds := s.cmds ++ [c] }
  | none => s

/-- Method `Bulk.execute()`: flush the open command, run every command sequentially
against the store merging each response, then set `ok = 1` and resolve. -/
def Bulk.execute (s : Bulk) (store : Nat → CommandResult) : BatchResult :=
  let s1 := s.pushCurrentCmd
  let r := eachRun store s1.cmds 0 emptyBatchResult
  { r with ok := 1 }

/-! ## Submission trace of `execute` -/

/-- Events of the sequential promise chain built by `each`: `submit i` marks
the invocation of `connection.command` for the i-th command, `response i`
marks the resolution of that command's promise (response received and merged
by `setResult`). -/
inductive BulkEvent where
  | submit (idx : Nat)
  | response (idx : Nat)
deriving DecidableEq

/-- Linearization of the promise chain of `each`: the recursive call for
index `idx + 1` only runs inside the `.then` of the idx-th submission. -/
def eachTrace : List Command → Nat → List BulkEvent
  | [], _ => []
  | _ :: rest, idx => BulkEvent.submit idx :: BulkEvent.response idx :: eachTrace rest (idx + 1)

/-- The event trace of `Bulk.execute()`. -/
def Bulk.executeTrace (s : Bulk) : List BulkEvent :=
  eachTrace s.pushCurrentCmd.cmds 0

def isSubmit : BulkEvent → Bool
  | BulkEvent.submit _ => true
  | BulkEvent.response _ => false

def isResponse : BulkEvent → Bool
  | BulkEvent.submit _ => false
  | BulkEvent.response _ => true

/-! ## tojson / toString -/

/-- The stats object returned by `Bulk.tojson()`. -/
structure BulkStats where
  nInsertOps : Nat
  nUpdateOps : Nat
  nRemoveOps : Nat
  nBatches : Nat
deriving DecidableEq

/-- JS truthiness of the property access `cmd[k]` on a `Command` class
instance: its own properties are exactly `ordered`, `writeConcern`,
`cmdNames` and `bulkCollections` (the latter three are objects, hence
truthy); any other access — in particular `cmd.update`, `cmd.insert`,
`cmd.delete` in `tojson` — yields `undefined`, which is falsy. -/
def Command.propTruthy (c : Command) (k : String) : Bool :=
  if k = "ordered" then c.ordered
  else if k = "writeConcern" then true
  else if k = "cmdNames" then true
  else if k = "bulkCollections" then true
  else false

/-- Method `Bulk.tojson()`: pushes the current command into `cmds` (without clearing
`currentCmd`), then folds the per-kind operation counts over the command
list.  The branch bodies read the matching bucket; since `cmd.update` etc.
are always falsy on a `Command` instance, no branch is ever taken. -/
def Bulk.tojson (s : Bulk) : BulkStats × Bulk :=
  let s1 :=
    match s.currentCmd with
    | some c => { s with cmds := s.cmds ++ [c] }
    | none => s
  let stats := s1.cmds.foldl
    (fun o cmd =>
      if cmd.propTruthy "update" then { o with nUpdateOps := o.nUpdateOps + (cmd.bucket "updates").length }
      else if cmd.propTruthy "insert" then { o with nInsertOps := o.nInsertOps + (cmd.bucket "documents").length }
      else if cmd.propTruthy "delete" then { o with nRemoveOps := o.nRemoveOps + (cmd.bucket "deletes").length }
      else o)
    ⟨0, 0, 0, s1.cmds.length⟩
  (stats, s1)

/-! ## The lazy Cursor adapter -/

/-- The remote cursor handle produced by the cursor factory.  Applied option
and flag method calls are recorded in application order; `docs` is the
remaining result sequence. -/
structure Handle where
  appliedOptions : List (String × Nat)
  appliedFlags : List (String × Nat)
  closed : Bool
  killed : Bool
  docs : List Nat
deriving DecidableEq

/-- Statement `cursor = cursor[key](value)` for a configuration method `key`. -/
def Handle.applyOption (h : Handle) (k : String) (v : Nat) : Handle :=
  { h with appliedOptions := h.appliedOptions ++ [(k, v)] }

/-- Call `cursor.addCursorFlag(key, value)` on the realized handle. -/
def Handle.applyFlag (h : Handle) (k : String) (v : Nat) : Handle :=
  { h with appliedFlags := h.appliedFlags ++ [(k, v)] }

/-- State of a `Cursor` instance: the accumulated `_options` and `_flags`
objects and the realized handle (`none` while unrealized). -/
structure CursorState where
  options : List (String × Nat)
  flags : List (String × Nat)
  cursor : Option Handle
deriving DecidableEq

/-- The `Cursor` constructor: empty `_options`, empty `_flags`, unrealized. -/
def CursorState.init : CursorState :=
  ⟨[], [], none⟩

/-- The configuration method names installed by the constructor. -/
def cursorOperations : List String :=
  ["batchSize", "hint", "limit", "maxTimeMS", "max", "min", "skip", "snapshot", "sort", "collation"]

/-- One of the installed configuration setters (all ten share this body):
record the value in `_options` and return the cursor itself. -/
def CursorState.setOption (s : CursorState) (k : String) (v : Nat) : CursorState :=
  { s with options := objSet s.options k v }

/-- Method `Cursor.addCursorFlag(flag, value)`: record in `_flags`, return the
cursor. -/
def CursorState.addCursorFlag (s : CursorState) (k : String) (v : Nat) : CursorState :=
  { s with flags := objSet s.flags k v }

/-- Method `getCursor()`: return the realized handle if present; otherwise invoke
the factory, apply every accumulated option (in insertion order), then every
accumulated flag, cache the handle and return it.  The third component
records whether the factory was invoked by this call. -/
def CursorState.getCursor (s : CursorState) (factory : Handle) : Handle × CursorState × Bool :=
  match s.cursor with
  | some c => (c, s, false)
  | none =>
      let c1 := s.options.foldl (fun h kv => h.applyOption kv.1 kv.2) factory
      let c2 := s.flags.foldl (fun h kv => h.applyFlag kv.1 kv.2) c1
      (c2, { s with cursor := some c2 }, true)

/-- Method `next()`: realize if needed; a closed or killed handle yields `null`
(modelled `none`), otherwise pull the next document from the handle. -/
def CursorState.next (s : CursorState) (factory : Handle) : Option Nat × CursorState :=
  let p := s.getCursor factory
  let c := p.1
  let s1 := p.2.1
  if c.closed || c.killed then (none, s1)
  else
    match c.docs with
    | [] => (none, s1)
    | d :: rest => (some d, { s1 with cursor := some { c with docs := rest } })

/-- Method `hasNext()`: realize if needed; `!cursor.closed && cursor.hasNext()`,
where the underlying handle's `hasNext` reports a remaining document. -/
def CursorState.hasNext (s : CursorState) (factory : Handle) : Bool × CursorState :=
  let p := s.getCursor factory
  (!p.1.closed && !p.1.docs.isEmpty, p.2.1)

/-- Method `close()`: `getCursor().then(cursor => cursor.close())` — note this
realizes an unrealized cursor.  The second component reports whether the
factory was invoked by the inner `getCursor`. -/
def CursorState.close (s : CursorState) (factory : Handle) : CursorState × Bool :=
  let p := s.getCursor factory
  ({ p.2.1 with cursor := some { p.1 with closed := true } }, p.2.2)

/-- Method `destroy()` simply delegates to `close()`. -/
def CursorState.destroy (s : CursorState) (factory : Handle) : CursorState × Bool :=
  s.close factory

/-- Method `toArray()`: realize if needed and drain the handle eagerly. -/
def CursorState.toArray (s : CursorState) (factory : Handle) : List Nat × CursorState :=
  let p := s.getCursor factory
  (p.1.docs, { p.2.1 with cursor := some { p.1 with docs := [], closed := true } })

/-! ## Sample values used by witnesses -/

def sampleFactory : Handle := ⟨[], [], false, false, [1, 2]⟩

def sampleFactory2 : Handle := ⟨[("skip", 3)], [], false, false, [9]⟩

def sampleUnrealized : CursorState := ⟨[("limit", 5)], [("tailable", 1)], none⟩

def sampleRealized : CursorState := ⟨[], [], some sampleFactory⟩

def sampleCommand : Command := ⟨true, 1, [("insert", "test")], [("documents", [Op.doc 1])]⟩

def twoCmdBulk : Bulk := ⟨"test", true, 1, [sampleCommand, sampleCommand], none⟩

/-- The interleaved accumulation insert, find-update, insert of claim C3. -/
def interleavedBulk : Bulk :=
  let s1 := (Bulk.init "test" true 1).insert 1
  let s2 := (s1.find 2).update s1 3
  s2.insert 4

def sampleInsertBulk : Bulk := (Bulk.init "test" true 1).insert 5

def sampleInsertCmd : Command := ⟨true, 1, [("insert", "test")], [("documents", [Op.doc 5])]⟩

/-- The `documents` bucket of a command. -/
def insBucket (cmd : Command) : List Op := cmd.bucket "documents"

/-- Invariant of a `Bulk` that has accumulated exactly the insert operations
for the documents `ds` (in order) since construction: every flushed command
is a full insert command, the current command (if any) is a nonempty insert
command within the size bound, and the buckets concatenate to `ds` in
order. -/
def InsInv (c : String) (ds : List Nat) (s : Bulk) : Prop :=
  s.colName = c
  ∧ (∀ cmd ∈ s.cmds, cmd.cmdNames = [("insert", c)]
       ∧ cmd.bulkCollections = [("documents", insBucket cmd)]
       ∧ (insBucket cmd).length = MAX_BULK_SIZE)
  ∧ (match s.currentCmd with
     | none => s.cmds = [] ∧ ds = []
     | some cur => cur.cmdNames = [("insert", c)]
         ∧ cur.bulkCollections = [("documents", insBucket cur)]
         ∧ 0 < (insBucket cur).length ∧ (insBucket cur).length ≤ MAX_BULK_SIZE)
  ∧ ((s.cmds.map insBucket).flatten
      ++ (match s.currentCmd with | none => [] | some cur => insBucket cur)) = ds.map Op.doc

/-! ## Lemmas about the JS object model -/

@[simp] theorem objGet_nil {α : Type} (k : String) : objGet ([] : List (String × α)) k = none := rfl

@[simp] theorem objSet_nil {α : Type} (k : String) (v : α) :
    objSet ([] : List (String × α)) k v = [(k, v)] := rfl

@[simp] theorem objGet_singleton_hit {α : Type} (k : String) (v : α) :
    objGet [(k, v)] k = some v := by
  simp [objGet]

@[simp] theorem objSet_singleton_hit {α : Type} (k : String) (v v' : α) :
    objSet [(k, v)] k v' = [(k, v')] := by
  simp [objSet]

/-! ## General lemmas about execution and the submission trace -/

/-- Computed form of `setResult`: the `cmdKeys` lookup always misses (the first own
key of a `Command` instance is `cmdNames`), so only the `undefinedNaN` flag
and the write-error list change. -/
theorem setResult_eq (r : BatchResult) (cmd : Command) (res : CommandResult) :
    setResult r cmd res
      = { r with undefinedNaN := true, writeErrors := r.writeErrors ++ res.writeErrors } := rfl

/-- Fields never touched by `eachRun`: matched/modified counts, write-concern
errors and upserted ids are carried through unchanged. -/
theorem eachRun_preserved (store : Nat → CommandResult) :
    ∀ (cmds : List Command) (idx : Nat) (r : BatchResult),
      ((eachRun store cmds idx r).nMatched = r.nMatched)
      ∧ ((eachRun store cmds idx r).nModified = r.nModified)
      ∧ ((eachRun store cmds idx r).writeConcernErrors = r.writeConcernErrors)
      ∧ ((eachRun store cmds idx r).upserted = r.upserted)
  | [], _, _ => ⟨rfl, rfl, rfl, rfl⟩
  | cmd :: rest, idx, r => by
      have ih := eachRun_preserved store rest (idx + 1) (setResult r cmd (store idx))
      simpa [eachRun, setResult_eq] using ih

/-- The write errors accumulated by `eachRun` are the initial ones followed by
the store-reported ones, in submission order. -/
theorem eachRun_writeErrors (store : Nat → CommandResult) :
    ∀ (cmds : List Command) (idx : Nat) (r : BatchResult),
      (eachRun store cmds idx r).writeErrors
        = r.writeErrors ++ ((List.range cmds.length).map (fun i => (store (idx + i)).writeErrors)).flatten
  | [], idx, r => by simp [eachRun]
  | cmd :: rest, idx, r => by
      have ih := eachRun_writeErrors store rest (idx + 1) (setResult r cmd (store idx))
      have hx : ∀ i : Nat, idx + 1 + i = idx + (i + 1) := by omega
      simp only [setResult_eq, hx] at ih
      simp only [eachRun, setResult_eq]
      rw [ih]
      simp [List.range_succ_eq_map, List.map_map, Function.comp_def, Nat.succ_eq_add_one,
        List.append_assoc]

/-- Every command in the list gives rise to exactly one submission event. -/
theorem countP_submit_eachTrace :
    ∀ (cmds : List Command) (idx : Nat), (eachTrace cmds idx).countP isSubmit = cmds.length
  | [], _ => rfl
  | _ :: rest, idx => by
      simp [eachTrace, List.countP_cons, isSubmit, isResponse,
        countP_submit_eachTrace rest (idx + 1)]

/-- In every prefix of the trace, responses never outnumber submissions and
submissions never exceed responses by more than one: at most one command is
outstanding at any point. -/
theorem eachTrace_counts :
    ∀ (cmds : List Command) (idx k : Nat),
      ((eachTrace cmds idx).take k).countP isResponse ≤ ((eachTrace cmds idx).take k).countP isSubmit
      ∧ ((eachTrace cmds idx).take k).countP isSubmit
          ≤ ((eachTrace cmds idx).take k).countP isResponse + 1
  | [], idx, k => by simp [eachTrace]
  | _ :: rest, idx, 0 => by simp [eachTrace]
  | _ :: rest, idx, 1 => by simp [eachTrace, List.countP_cons, isSubmit, isResponse]
  | _ :: rest, idx, (k + 2) => by
      have ih := eachTrace_counts rest (idx + 1) k
      simp only [eachTrace, List.take_succ_cons, List.countP_cons, isSubmit, isResponse] at ih ⊢
      omega

/-- A later command is never submitted before the previous command's response
is in the trace prefix. -/
theorem eachTrace_response_before_next_submit :
    ∀ (cmds : List Command) (idx k i : Nat), idx ≤ i →
      BulkEvent.submit (i + 1) ∈ (eachTrace cmds idx).take k →
      BulkEvent.response i ∈ (eachTrace cmds idx).take k
  | [], idx, k, i, _, hmem => by simp [eachTrace] at hmem
  | _ :: rest, idx, 0, i, _, hmem => by simp at hmem
  | _ :: rest, idx, 1, i, hle, hmem => by
      simp [eachTrace, List.take_succ_cons] at hmem
      omega
  | _ :: rest, idx, (k + 2), i, hle, hmem => by
      simp only [eachTrace, List.take_succ_cons, List.mem_cons] at hmem
      rcases hmem with h1 | h1 | h1
      · exact absurd h1 (by simp; omega)
      · exact absurd h1 (by simp)
      · rcases Nat.eq_or_lt_of_le hle with heq | hlt
        · subst heq
          simp [eachTrace, List.take_succ_cons, List.mem_cons]
        · have ht := eachTrace_response_before_next_submit rest (idx + 1) k i hlt h1
          simp [eachTrace, List.take_succ_cons, List.mem_cons, ht]

/-! ## Cursor lemmas -/

/-- Folding the option applications appends the options to the handle's
applied-option record and changes nothing else. -/
theorem foldl_applyOption (opts : List (String × Nat)) (h : Handle) :
    opts.foldl (fun h kv => h.applyOption kv.1 kv.2) h
      = { h with appliedOptions := h.appliedOptions ++ opts } := by
  induction opts generalizing h with
  | nil => simp
  | cons kv rest ih =>
      rw [List.foldl_cons, ih]
      simp [Handle.applyOption, List.append_assoc]

/-- Folding the flag applications appends the flags to the handle's
applied-flag record and changes nothing else. -/
theorem foldl_applyFlag (flags : List (String × Nat)) (h : Handle) :
    flags.foldl (fun h kv => h.applyFlag kv.1 kv.2) h
      = { h with appliedFlags := h.appliedFlags ++ flags } := by
  induction flags generalizing h with
  | nil => simp
  | cons kv rest ih =>
      rw [List.foldl_cons, ih]
      simp [Handle.applyFlag, List.append_assoc]

/-- On a realized cursor, `getCursor` returns the cached handle without
touching the factory. -/
theorem getCursor_of_realized (s : CursorState) (c f : Handle) (h : s.cursor = some c) :
    s.getCursor f = (c, s, false) := by
  simp [CursorState.getCursor, h]

/-- After any `getCursor` call the state is realized with the returned
handle. -/
theorem getCursor_state_realized (s : CursorState) (f : Handle) :
    ((s.getCursor f).2.1).cursor = some ((s.getCursor f).1) := by
  cases hc : s.cursor <;> simp [CursorState.getCursor, hc]

/-- After any `next` call the state is realized. -/
theorem next_state_realized (s : CursorState) (f : Handle) :
    ∃ c, ((s.next f).2).cursor = some c := by
  have h := getCursor_state_realized s f
  simp only [CursorState.next]
  split
  · exact ⟨_, h⟩
  · split
    · exact ⟨_, h⟩
    · exact ⟨_, rfl⟩

/-! ## Lemmas about insert batching -/

/-- Inserting with no current command creates a fresh insert command holding
just the new document. -/
theorem insert_on_none (s : Bulk) (d : Nat) (hsc : s.currentCmd = none) :
    s.insert d = { s with currentCmd := some (Command.mk s.ordered s.writeConcern [("insert", s.colName)] [("documents", [Op.doc d])]) } := by
  simp [Bulk.insert, Bulk.ensureCommand, hsc, Command.setCmdName, Command.setBulkCollection,
    Command.pushOp, Command.bucket, Command.getBulkCollection]

/-- Inserting while the current insert command has room pushes into its
bucket. -/
theorem insert_on_room (s : Bulk) (cur : Command) (l : List Op) (d : Nat)
    (hsc : s.currentCmd = some cur)
    (hn : cur.cmdNames = [("insert", s.colName)])
    (hb : cur.bulkCollections = [("documents", l)])
    (hcol : s.colName ≠ "")
    (hlen : l.length ≠ MAX_BULK_SIZE) :
    s.insert d = { s with currentCmd := some { cur with bulkCollections := [("documents", l ++ [Op.doc d])] } } := by
  have ht : jsTruthyStr (cur.getCmdName "insert") = true := by
    simp only [Command.getCmdName, hn, objGet_singleton_hit, jsTruthyStr]
    simpa [bne_iff_ne] using hcol
  simp [Bulk.insert, Bulk.ensureCommand, hsc, ht, hlen, hb, Command.pushOp,
    Command.bucket, Command.getBulkCollection]

/-- Inserting while the current command's bucket is full flushes it and
starts a fresh insert command holding just the new document. -/
theorem insert_on_full (s : Bulk) (cur : Command) (l : List Op) (d : Nat)
    (hsc : s.currentCmd = some cur)
    (hb : cur.bulkCollections = [("documents", l)])
    (hlen : l.length = MAX_BULK_SIZE) :
    s.insert d = { s with cmds := s.cmds ++ [cur], currentCmd := some (Command.mk s.ordered s.writeConcern [("insert", s.colName)] [("documents", [Op.doc d])]) } := by
  simp [Bulk.insert, Bulk.ensureCommand, hsc, hb, hlen, Command.setCmdName,
    Command.setBulkCollection, Command.pushOp, Command.bucket, Command.getBulkCollection]

/-- The `documents` bucket of a freshly created single-document command. -/
theorem insBucket_fresh (o : Bool) (w : Nat) (cn : String) (d : Nat) :
    insBucket (Command.mk o w [("insert", cn)] [("documents", [Op.doc d])]) = [Op.doc d] := by
  simp [insBucket, Command.bucket, Command.getBulkCollection]

/-- The insert invariant is preserved by one `insert`. -/
theorem insInv_insert (c : String) (hc : c ≠ "") (ds : List Nat) (s : Bulk) (d : Nat)
    (h : InsInv c ds s) : InsInv c (ds ++ [d]) (s.insert d) := by
  obtain ⟨hcol, hall, hcur, hjoin⟩ := h
  cases hsc : s.currentCmd with
  | none =>
      simp only [hsc] at hcur hjoin
      obtain ⟨hcmds, hds⟩ := hcur
      subst hds
      rw [insert_on_none s d hsc]
      refine ⟨hcol, hall, ?_, ?_⟩
      · exact ⟨by simp [hcol], by simp [insBucket_fresh], by simp [insBucket_fresh],
          by simp [insBucket_fresh, MAX_BULK_SIZE]⟩
      · simp [hcmds, insBucket_fresh]
  | some cur =>
      simp only [hsc] at hcur hjoin
      obtain ⟨hn, hb, hpos, hle⟩ := hcur
      have hn' : cur.cmdNames = [("insert", s.colName)] := by rw [hcol]; exact hn
      have hc' : s.colName ≠ "" := by rw [hcol]; exact hc
      by_cases hfull : (insBucket cur).length = MAX_BULK_SIZE
      · rw [insert_on_full s cur (insBucket cur) d hsc hb hfull]
        refine ⟨hcol, ?_, ?_, ?_⟩
        · intro cmd hm
          rcases List.mem_append.mp hm with hm | hm
          · exact hall cmd hm
          · rw [List.mem_singleton.mp hm]
            exact ⟨hn, hb, hfull⟩
        · exact ⟨by simp [hcol], by simp [insBucket_fresh], by simp [insBucket_fresh],
            by simp [insBucket_fresh, MAX_BULK_SIZE]⟩
        · show (List.map insBucket (s.cmds ++ [cur])).flatten
              ++ insBucket (Command.mk s.ordered s.writeConcern [("insert", s.colName)] [("documents", [Op.doc d])])
            = List.map Op.doc (ds ++ [d])
          rw [insBucket_fresh, List.map_append, List.flatten_append]
          simp only [List.map_cons, List.map_nil, List.flatten_cons, List.flatten_nil,
            List.append_nil]
          rw [hjoin]
          simp
      · rw [insert_on_room s cur (insBucket cur) d hsc hn' hb hc' hfull]
        have hnb : insBucket { cur with bulkCollections := [("documents", insBucket cur ++ [Op.doc d])] } = insBucket cur ++ [Op.doc d] := by
          simp [insBucket, Command.bucket, Command.getBulkCollection]
        refine ⟨hcol, hall, ?_, ?_⟩
        · refine ⟨hn, by simp [hnb], ?_, ?_⟩
          · simp [hnb]
          · have hle' : (insBucket cur).length ≤ 1000 := hle
            have hfull' : (insBucket cur).length ≠ 1000 := hfull
            simp only [hnb, List.length_append, List.length_singleton, MAX_BULK_SIZE]
            omega
        · show (List.map insBucket s.cmds).flatten
              ++ insBucket { cur with bulkCollections := [("documents", insBucket cur ++ [Op.doc d])] }
            = List.map Op.doc (ds ++ [d])
          rw [hnb, ← List.append_assoc, hjoin]
          simp

/-- The insert invariant is preserved by `insertAll`. -/
theorem insertAll_inv (c : String) (hc : c ≠ "") :
    ∀ (docs ds : List Nat) (s : Bulk), InsInv c ds s → InsInv c (ds ++ docs) (s.insertAll docs)
  | [], ds, s, h => by simpa [Bulk.insertAll] using h
  | d :: rest, ds, s, h => by
      have h2 := insertAll_inv c hc rest (ds ++ [d]) (s.insert d) (insInv_insert c hc ds s d h)
      have he : ds ++ d :: rest = (ds ++ [d]) ++ rest := by simp
      rw [he]
      simpa [Bulk.insertAll, List.foldl_cons] using h2

/-- Length of a concatenation of full buckets. -/
theorem flatten_length_1000 (L : List (List Op)) (h : ∀ x ∈ L, x.length = 1000) :
    L.flatten.length = 1000 * L.length := by
  induction L with
  | nil => simp
  | cons x rest ih =>
      have hx := h x (List.mem_cons_self x rest)
      have ih' := ih (fun y hy => h y (List.mem_cons_of_mem x hy))
      simp [List.flatten_cons, hx, ih']
      ring

/-! ## Claim theorems -/

/-- C1: the claim says each Command's reported `n` is added to the count field
corresponding to the Command's kind.  The code computes the kind as
`Object.keys(cmd)[0]` on a `Command` class instance, which never yields an
operation name, so the reported counts are lost: with one insert Command and
a store reporting `n = 1`, the resolved result still has `nInserted = 0`
(the addition lands on the undefined key, making it `NaN`), while the
write errors are collected as claimed. -/
theorem execute_insert_count_lost :
    ((((Bulk.init "test" true 1).insert 5).execute (fun _ => ⟨1, [⟨0, 11000⟩], []⟩)).nInserted = 0)
    ∧ ((((Bulk.init "test" true 1).insert 5).execute (fun _ => ⟨1, [⟨0, 11000⟩], []⟩)).undefinedNaN = true)
    ∧ ((((Bulk.init "test" true 1).insert 5).execute (fun _ => ⟨1, [⟨0, 11000⟩], []⟩)).writeErrors
        = [⟨0, 11000⟩]) := by
  decide

/-- C4: during `execute`, commands are submitted strictly sequentially: in
every prefix of the execution trace, responses never outnumber submissions,
at most one submission is outstanding, and the (i+1)-th command is never
submitted before the i-th command's response has been received and merged. -/
theorem execute_submits_sequentially (s : Bulk) (k i : Nat) :
    (((s.executeTrace).take k).countP isResponse ≤ ((s.executeTrace).take k).countP isSubmit)
    ∧ (((s.executeTrace).take k).countP isSubmit ≤ ((s.executeTrace).take k).countP isResponse + 1)
    ∧ (BulkEvent.submit (i + 1) ∈ (s.executeTrace).take k
        → BulkEvent.response i ∈ (s.executeTrace).take k) := by
  refine ⟨(eachTrace_counts _ 0 k).1, (eachTrace_counts _ 0 k).2, ?_⟩
  exact eachTrace_response_before_next_submit _ 0 k i (Nat.zero_le i)

theorem execute_submits_sequentially_witness :
    (BulkEvent.submit 1 ∈ (twoCmdBulk.executeTrace).take 3)
    ∧ (BulkEvent.response 0 ∈ (twoCmdBulk.executeTrace).take 3) :=
  ⟨by decide, (execute_submits_sequentially twoCmdBulk 3 0).2.2 (by decide)⟩

/-- C5: per-document write errors reported by the store are never raised as
faults: every command in the batch is submitted (one submission event per
command, for every store behaviour and either value of the ordered flag), the
reported write errors are appended to `writeErrors` in submission order, and
`execute` still resolves with `ok = 1`. -/
theorem execute_collects_writeErrors_and_continues (s : Bulk) (store : Nat → CommandResult) :
    ((s.executeTrace).countP isSubmit = s.pushCurrentCmd.cmds.length)
    ∧ ((s.execute store).writeErrors
        = ((List.range s.pushCurrentCmd.cmds.length).map (fun i => (store i).writeErrors)).flatten)
    ∧ ((s.execute store).ok = 1) := by
  refine ⟨countP_submit_eachTrace _ 0, ?_, rfl⟩
  have h := eachRun_writeErrors store s.pushCurrentCmd.cmds 0 emptyBatchResult
  simpa [Bulk.execute, emptyBatchResult] using h

/-- C6: on an unrealized cursor the first consuming call invokes the factory
(exactly once), applies all accumulated option overrides and then all
accumulated flags to the produced handle, caches the handle, and every
subsequent consuming call returns the same handle without consulting the
factory again. -/
theorem getCursor_realizes_once (s : CursorState) (f : Handle) (h : s.cursor = none) :
    ((s.getCursor f).2.2 = true)
    ∧ ((s.getCursor f).1.appliedOptions = f.appliedOptions ++ s.options)
    ∧ ((s.getCursor f).1.appliedFlags = f.appliedFlags ++ s.flags)
    ∧ ((s.getCursor f).2.1.cursor = some ((s.getCursor f).1))
    ∧ (∀ f', ((s.getCursor f).2.1).getCursor f'
        = ((s.getCursor f).1, (s.getCursor f).2.1, false)) := by
  have hg : s.getCursor f
      = ({ f with appliedOptions := f.appliedOptions ++ s.options,
                  appliedFlags := f.appliedFlags ++ s.flags },
         { s with cursor := some { f with appliedOptions := f.appliedOptions ++ s.options,
                                          appliedFlags := f.appliedFlags ++ s.flags } }, true) := by
    simp [CursorState.getCursor, h, foldl_applyOption, foldl_applyFlag]
  rw [hg]
  refine ⟨rfl, rfl, rfl, rfl, fun f' => ?_⟩
  simp [CursorState.getCursor]

theorem getCursor_realizes_once_witness :
    (sampleUnrealized.cursor = none)
    ∧ ((sampleUnrealized.getCursor sampleFactory).2.2 = true)
    ∧ ((sampleUnrealized.getCursor sampleFactory).1.appliedOptions
        = sampleFactory.appliedOptions ++ sampleUnrealized.options)
    ∧ (((sampleUnrealized.getCursor sampleFactory).2.1).getCursor sampleFactory2
        = ((sampleUnrealized.getCursor sampleFactory).1,
           (sampleUnrealized.getCursor sampleFactory).2.1, false)) :=
  ⟨by decide,
   (getCursor_realizes_once sampleUnrealized sampleFactory (by decide)).1,
   (getCursor_realizes_once sampleUnrealized sampleFactory (by decide)).2.1,
   (getCursor_realizes_once sampleUnrealized sampleFactory (by decide)).2.2.2.2 sampleFactory2⟩

/-- C7: a configuration setter called after realization records the value in
`_options` but is a silent no-op with respect to the realized handle: the
cached handle is unchanged, the next consuming call still returns it without
re-invoking the factory, and no error is raised (the setter is total and
returns the cursor).  Concretely, `limit(5)` before first consumption is
applied to the handle; setting `limit` after the first `next()` leaves the
realized handle unchanged. -/
theorem late_setter_silent_noop (s : CursorState) (c f : Handle) (k : String) (v : Nat)
    (h : s.cursor = some c) :
    ((s.setOption k v).cursor = some c)
    ∧ ((s.setOption k v).getCursor f = (c, s.setOption k v, false))
    ∧ (((CursorState.init.setOption "limit" 5).getCursor f).1.appliedOptions
        = f.appliedOptions ++ [("limit", 5)])
    ∧ ((((((CursorState.init.setOption "limit" 5).next f).2).setOption "limit" 9).getCursor f).1
        = ((((CursorState.init.setOption "limit" 5).next f).2).getCursor f).1) := by
  have h1 : (s.setOption k v).cursor = some c := h
  refine ⟨h1, getCursor_of_realized _ c f h1, ?_, ?_⟩
  · simp [CursorState.init, CursorState.setOption, CursorState.getCursor,
      foldl_applyOption, foldl_applyFlag, Handle.applyOption]
  · obtain ⟨c', hc'⟩ := next_state_realized (CursorState.init.setOption "limit" 5) f
    have hl : (((((CursorState.init.setOption "limit" 5).next f).2).setOption "limit" 9)).cursor
        = some c' := hc'
    rw [getCursor_of_realized _ c' f hl, getCursor_of_realized _ c' f hc']

theorem late_setter_silent_noop_witness :
    (sampleRealized.cursor = some sampleFactory)
    ∧ ((sampleRealized.setOption "skip" 7).getCursor sampleFactory2
        = (sampleFactory, sampleRealized.setOption "skip" 7, false)) :=
  ⟨by decide,
   (late_setter_silent_noop sampleRealized sampleFactory sampleFactory2 "skip" 7 (by decide)).2.1⟩

/-- C8 counterexample: closing a never-realized cursor is not a no-op and the
factory IS invoked by it — `close()` goes through `getCursor()`, which
realizes the cursor before closing it. -/
theorem close_unrealized_invokes_factory :
    ((CursorState.init.close sampleFactory).2 = true)
    ∧ ((CursorState.init.close sampleFactory).1.cursor ≠ none) := by
  decide

/-- C8 (amended): `close()`/`destroy()` realize the cursor if necessary
(invoking the factory on an unrealized cursor) and mark the realized handle
closed; afterwards every `next()` yields the end-of-sequence marker rather
than reopening or throwing, and `hasNext()` returns false. -/
theorem close_realizes_then_ends (s : CursorState) (f f' : Handle) :
    (∃ c, ((s.close f).1).cursor = some c ∧ c.closed = true)
    ∧ ((((s.close f).1).next f').1 = none)
    ∧ ((((s.close f).1).hasNext f').1 = false)
    ∧ (s.destroy f = s.close f) := by
  have hc : ((s.close f).1).cursor = some { (s.getCursor f).1 with closed := true } := rfl
  have hg := getCursor_of_realized ((s.close f).1) _ f' hc
  refine ⟨⟨_, hc, rfl⟩, ?_, ?_, rfl⟩
  · simp [CursorState.next, hg]
  · simp [CursorState.hasNext, hg]

/-- C9 (code_bug evidence): `tojson` neither reports the pending operation
counts nor leaves the state unchanged: with one pending insert it returns
`nInsertOps = 0` (the `cmd.update` / `cmd.insert` / `cmd.delete` property
tests are always falsy on a `Command` instance), it appends the still-open
current command to the command list without clearing it, and a second call
reports a different `nBatches`. -/
theorem tojson_miscounts_and_mutates :
    ((((Bulk.init "test" true 1).insert 5).tojson.1 = ⟨0, 0, 0, 1⟩)
    ∧ (((Bulk.init "test" true 1).insert 5).cmds = [])
    ∧ (((Bulk.init "test" true 1).insert 5).tojson.2.cmds.length = 1)
    ∧ (((Bulk.init "test" true 1).insert 5).tojson.2.currentCmd
        = ((Bulk.init "test" true 1).insert 5).currentCmd)
    ∧ ((((Bulk.init "test" true 1).insert 5).tojson.2.tojson.1.nBatches = 2))) := by
  decide

/-- C10: whatever the store reports per command, the resolved batch result
always has `nMatched = 0`, `nModified = 0`, an empty `writeConcernErrors`
list and an empty `upserted` list — no code path adds to these fields. -/
theorem execute_never_populates_update_result_fields (s : Bulk) (store : Nat → CommandResult) :
    ((s.execute store).nMatched = 0)
    ∧ ((s.execute store).nModified = 0)
    ∧ ((s.execute store).writeConcernErrors = [])
    ∧ ((s.execute store).upserted = []) := by
  have h := eachRun_preserved store s.pushCurrentCmd.cmds 0 emptyBatchResult
  simpa [Bulk.execute, emptyBatchResult] using h

/-! ## Claim theorems C2 and C3 -/

/-- C2: accumulating N insert operations (with a nonempty collection name,
the truthiness assumption the batcher relies on) and executing yields exactly
ceil(N / 1000) Commands — as the flushed command list and as submission
events — each holding at most MAX_BULK_SIZE operations, whose buckets
concatenate to the accumulated operations in order. -/
theorem insert_batching_ceil (c : String) (ord : Bool) (w : Nat) (docs : List Nat)
    (hc : c ≠ "") :
    (((Bulk.init c ord w).insertAll docs).pushCurrentCmd.cmds.length = (docs.length + 999) / 1000)
    ∧ ((((Bulk.init c ord w).insertAll docs).executeTrace).countP isSubmit
        = (docs.length + 999) / 1000)
    ∧ (∀ cmd ∈ ((Bulk.init c ord w).insertAll docs).pushCurrentCmd.cmds,
        (cmd.bucket "documents").length ≤ MAX_BULK_SIZE)
    ∧ ((((Bulk.init c ord w).insertAll docs).pushCurrentCmd.cmds.map insBucket).flatten
        = docs.map Op.doc) := by
  have hbase : InsInv c [] (Bulk.init c ord w) :=
    ⟨rfl, by intro cmd hm; simp [Bulk.init] at hm, ⟨rfl, rfl⟩, by simp [Bulk.init]⟩
  have hinv := insertAll_inv c hc docs [] (Bulk.init c ord w) hbase
  rw [List.nil_append] at hinv
  obtain ⟨hcol, hall, hcur, hjoin⟩ := hinv
  have htrace : ((((Bulk.init c ord w).insertAll docs).executeTrace).countP isSubmit)
      = ((Bulk.init c ord w).insertAll docs).pushCurrentCmd.cmds.length :=
    countP_submit_eachTrace _ 0
  cases hsc : ((Bulk.init c ord w).insertAll docs).currentCmd with
  | none =>
      simp only [hsc] at hcur hjoin
      obtain ⟨hcmds, hds⟩ := hcur
      have hpush : ((Bulk.init c ord w).insertAll docs).pushCurrentCmd
          = (Bulk.init c ord w).insertAll docs := by
        simp [Bulk.pushCurrentCmd, hsc]
      have hn0 : docs.length = 0 := by rw [hds]; rfl
      refine ⟨?_, ?_, ?_, ?_⟩
      · rw [hpush, hcmds, hn0]
        decide
      · rw [htrace, hpush, hcmds, hn0]
        decide
      · intro cmd hm
        rw [hpush, hcmds] at hm
        simp at hm
      · rw [hpush, hcmds, hds]
        rfl
  | some cur =>
      simp only [hsc] at hcur hjoin
      obtain ⟨hn, hb, hpos, hle⟩ := hcur
      have hpush : ((Bulk.init c ord w).insertAll docs).pushCurrentCmd
          = { (Bulk.init c ord w).insertAll docs with
              cmds := ((Bulk.init c ord w).insertAll docs).cmds ++ [cur] } := by
        simp [Bulk.pushCurrentCmd, hsc]
      have hfull : ∀ x ∈ ((Bulk.init c ord w).insertAll docs).cmds.map insBucket,
          x.length = 1000 := by
        intro x hx
        obtain ⟨cmd, hcm, hxe⟩ := List.mem_map.mp hx
        rw [← hxe]
        exact (hall cmd hcm).2.2
      have hflat := flatten_length_1000 _ hfull
      have hlenjoin := congrArg List.length hjoin
      rw [List.length_append, hflat, List.length_map, List.length_map] at hlenjoin
      have hle' : (insBucket cur).length ≤ 1000 := hle
      have hceil : ((Bulk.init c ord w).insertAll docs).cmds.length + 1
          = (docs.length + 999) / 1000 := by omega
      refine ⟨?_, ?_, ?_, ?_⟩
      · rw [hpush]
        simpa using hceil
      · rw [htrace, hpush]
        simpa using hceil
      · intro cmd hm
        rw [hpush] at hm
        simp only [List.mem_append, List.mem_singleton] at hm
        rcases hm with hm | hm
        · exact Nat.le_of_eq (hall cmd hm).2.2
        · rw [hm]
          exact hle
      · rw [hpush]
        simp only [List.map_append, List.flatten_append, List.map_cons, List.map_nil,
          List.flatten_cons, List.flatten_nil, List.append_nil]
        exact hjoin

theorem insert_batching_ceil_witness :
    (("test" : String) ≠ "")
    ∧ (((Bulk.init "test" true 1).insertAll [5, 6, 7]).pushCurrentCmd.cmds.length = 1) :=
  ⟨by decide, (insert_batching_ceil "test" true 1 [5, 6, 7] (by decide)).1⟩

/-- C3: `ensureCommand` returns the current open Command unchanged when the
requested kind matches (truthy command-name lookup) and its bucket has room;
otherwise it flushes the current Command onto the batch list and starts,
caches and returns a fresh Command for the requested kind and bucket.
Consequently a kind change forces a flush, and the interleaved accumulation
insert, find-update, insert produces three Commands. -/
theorem ensureCommand_contract (s : Bulk) (cur : Command) (kind b : String)
    (hcur : s.currentCmd = some cur) :
    ((jsTruthyStr (cur.getCmdName kind) = true → (cur.bucket b).length ≠ MAX_BULK_SIZE →
        s.ensureCommand kind b = (cur, s)))
    ∧ ((jsTruthyStr (cur.getCmdName kind) = false ∨ (cur.bucket b).length = MAX_BULK_SIZE →
        ((s.ensureCommand kind b).2.cmds = s.cmds ++ [cur]
          ∧ (s.ensureCommand kind b).1
              = ((Command.mk s.ordered s.writeConcern [] []).setCmdName kind s.colName).setBulkCollection b
          ∧ (s.ensureCommand kind b).2.currentCmd = some ((s.ensureCommand kind b).1))))
    ∧ (interleavedBulk.pushCurrentCmd.cmds.length = 3) := by
  refine ⟨?_, ?_, by decide⟩
  · intro h1 h2
    simp [Bulk.ensureCommand, hcur, h1, h2]
  · intro h
    have hcond : (!(jsTruthyStr (cur.getCmdName kind))
        || ((cur.bucket b).length == MAX_BULK_SIZE)) = true := by
      rcases h with h | h <;> simp [h]
    simp [Bulk.ensureCommand, hcur, hcond]

theorem ensureCommand_contract_witness :
    (sampleInsertBulk.currentCmd = some sampleInsertCmd)
    ∧ (sampleInsertBulk.ensureCommand "insert" "documents" = (sampleInsertCmd, sampleInsertBulk)) :=
  ⟨by decide,
   (ensureCommand_contract sampleInsertBulk sampleInsertCmd "insert" "documents" (by decide)).1
     (by decide) (by decide)⟩

end Mongoist
